import Mathlib

/-!
TrustZone demo application (`native-modules/trustzone-app/trustzone_app.c`)

A shallow embedding of the four entry points of the demo secure-world
application: `secure_init`, `secure_compute`, `generate_attestation` and
`secure_key_operation`.

Modelling conventions.

* A byte (`uint8_t`) is a `Nat`; a value computed by arithmetic is reduced
  `% 256` when it is stored into a byte, `memcpy` moves bytes as they are.
* A caller's buffer (`uint8_t*`) is `Option (List Nat)`: `none` is the null
  pointer, `some l` points at `l.length` addressable bytes.  Distinct buffer
  arguments do not overlap.
* A `const char*` identifier is `Option String`.
* `size_t` arguments are `Nat`; the code only compares them with constants.
* The only global, `static uint8_t secure_buffer[SECURE_BUFFER_SIZE]`, is the
  `State`; the array type fixes its length.
* A call yields `Option Outcome`: `none` stands for an access outside a buffer
  (no defined behaviour in C), `some r` carries the returned `int`, the state
  after the call and the caller's writable buffer after the call.
-/

namespace TrustZoneApp

/-- Capacity of the secure buffer: `#define SECURE_BUFFER_SIZE 1024`. -/
def SECURE_BUFFER_SIZE : Nat := 1024

/-- Global state of the application: `static uint8_t secure_buffer[SECURE_BUFFER_SIZE]`. -/
structure State where
  secure_buffer : List Nat
  size_eq : secure_buffer.length = SECURE_BUFFER_SIZE
deriving DecidableEq

/-- Result of a call that returned: the `int` return value, the global state
after the call, and the caller's writable buffer after the call. -/
structure Outcome where
  ret : Int
  state : State
  buffer : Option (List Nat)
deriving DecidableEq

/-- State of the program at start-up: objects of static storage duration are
zero-initialised. -/
def initial_state : State :=
  ⟨List.replicate SECURE_BUFFER_SIZE 0, List.length_replicate _ _⟩

/-- Library call `memset(dst, c, n)`: the first `n` bytes of `dst` become `c`;
`none` when `dst` has fewer than `n` bytes. -/
def memset (dst : List Nat) (c n : Nat) : Option {l : List Nat // l.length = dst.length} :=
  if h : n ≤ dst.length then
    some ⟨List.replicate n (c % 256) ++ dst.drop n, by
      rw [List.length_append, List.length_replicate, List.length_drop]; omega⟩
  else none

/-- Library call `memcpy(dst, src, n)`: the first `n` bytes of `dst` become the
first `n` bytes of `src`; `none` when either region has fewer than `n` bytes. -/
def memcpy (dst src : List Nat) (n : Nat) : Option {l : List Nat // l.length = dst.length} :=
  if h : n ≤ dst.length ∧ n ≤ src.length then
    some ⟨src.take n ++ dst.drop n, by
      rw [List.length_append, List.length_take, List.length_drop]; omega⟩
  else none

/-- Source `secure_init`: `memset(secure_buffer, 0, SECURE_BUFFER_SIZE); return 0;`. -/
def secure_init (s : State) : Option Outcome :=
  match memset s.secure_buffer 0 SECURE_BUFFER_SIZE with
  | none => none
  | some sb => some ⟨0, ⟨sb.1, sb.2.trans s.size_eq⟩, none⟩

/-- The loop of `secure_compute`,
`for (i = 0; i < input_size; i++) output[i] = secure_buffer[i] ^ 0xAA;`,
with `k = input_size - i` iterations still to run. -/
def compute_loop (secure_buffer : List Nat) : Nat → Nat → List Nat → Option (List Nat)
  | 0, _, output => some output
  | k + 1, i, output =>
    match secure_buffer[i]? with
    | none => none
    | some b =>
      if i < output.length then
        compute_loop secure_buffer k (i + 1) (output.set i ((b ^^^ 0xAA) % 256))
      else none

/-- Source `secure_compute(input, input_size, output, output_size)`. -/
def secure_compute (s : State) (input : Option (List Nat)) (input_size : Nat)
    (output : Option (List Nat)) (_output_size : Nat) : Option Outcome :=
  match input, output with
  | none, _ => some ⟨-1, s, output⟩
  | _, none => some ⟨-1, s, output⟩
  | some inp, some out =>
    if input_size > SECURE_BUFFER_SIZE then some ⟨-1, s, output⟩
    else
      match memcpy s.secure_buffer inp input_size with
      | none => none
      | some sb =>
        match compute_loop sb.1 input_size 0 out with
        | none => none
        | some out1 => some ⟨0, ⟨sb.1, sb.2.trans s.size_eq⟩, some out1⟩

/-- The loop of `generate_attestation`,
`for (i = 0; i < 32; i++) token[i] = i ^ 0x55;`,
with `k = 32 - i` iterations still to run. -/
def attestation_loop : Nat → Nat → List Nat → Option (List Nat)
  | 0, _, token => some token
  | k + 1, i, token =>
    if i < token.length then
      attestation_loop k (i + 1) (token.set i ((i ^^^ 0x55) % 256))
    else none

/-- Source `generate_attestation(token, token_size)`. -/
def generate_attestation (s : State) (token : Option (List Nat)) (token_size : Nat) :
    Option Outcome :=
  match token with
  | none => some ⟨-1, s, token⟩
  | some tok =>
    if token_size < 32 then some ⟨-1, s, token⟩
    else
      match attestation_loop 32 0 tok with
      | none => none
      | some tok1 => some ⟨0, s, some tok1⟩

/-- Source `secure_key_operation(key_id, key, key_size, is_store)`. -/
def secure_key_operation (s : State) (key_id : Option String) (key : Option (List Nat))
    (key_size : Nat) (is_store : Int) : Option Outcome :=
  match key_id, key with
  | none, _ => some ⟨-1, s, key⟩
  | _, none => some ⟨-1, s, key⟩
  | some _, some k =>
    if key_size > SECURE_BUFFER_SIZE then some ⟨-1, s, key⟩
    else if is_store ≠ 0 then
      match memcpy s.secure_buffer k key_size with
      | none => none
      | some sb => some ⟨0, ⟨sb.1, sb.2.trans s.size_eq⟩, key⟩
    else
      match memcpy k s.secure_buffer key_size with
      | none => none
      | some k1 => some ⟨0, s, some k1.1⟩

/-! ## Auxiliary facts about the library calls and the two loops -/

theorem State.eq_of_buffer {s t : State} (h : s.secure_buffer = t.secure_buffer) : s = t := by
  cases s; cases t; cases h; rfl

theorem memset_eq {dst : List Nat} {c n : Nat} (h : n ≤ dst.length) :
    ∃ l, memset dst c n = some l ∧ l.1 = List.replicate n (c % 256) ++ dst.drop n := by
  simp [memset, h]

theorem memcpy_eq {dst src : List Nat} {n : Nat} (hd : n ≤ dst.length) (hs : n ≤ src.length) :
    ∃ l, memcpy dst src n = some l ∧ l.1 = src.take n ++ dst.drop n := by
  simp [memcpy, hd, hs]

theorem memcpy_eq_none {dst src : List Nat} {n : Nat} (h : ¬ (n ≤ dst.length ∧ n ≤ src.length)) :
    memcpy dst src n = none := by
  simp only [memcpy, h, dite_false]

/-- A store with in-range arguments succeeds, copies the first `n` bytes of the
caller's buffer over the first `n` bytes of the secure buffer and leaves the
caller's buffer as it was. -/
theorem store_eq (s : State) (id : String) (k : List Nat) (n : Nat) (f : Int)
    (hf : f ≠ 0) (hn : n ≤ SECURE_BUFFER_SIZE) (hk : n ≤ k.length) :
    ∃ r, secure_key_operation s (some id) (some k) n f = some r ∧ r.ret = 0 ∧
      r.state.secure_buffer = k.take n ++ s.secure_buffer.drop n ∧ r.buffer = some k := by
  obtain ⟨l, hl, hl1⟩ := memcpy_eq (hn.trans_eq s.size_eq.symm) hk
  simp [secure_key_operation, Nat.not_lt.mpr hn, hf, hl, hl1]

/-- A retrieve with in-range arguments succeeds, copies the first `n` bytes of
the secure buffer over the first `n` bytes of the caller's buffer and leaves
the state as it was. -/
theorem retrieve_eq (s : State) (id : String) (k : List Nat) (n : Nat)
    (hn : n ≤ SECURE_BUFFER_SIZE) (hk : n ≤ k.length) :
    secure_key_operation s (some id) (some k) n 0
      = some ⟨0, s, some (s.secure_buffer.take n ++ k.drop n)⟩ := by
  obtain ⟨l, hl, hl1⟩ := memcpy_eq hk (hn.trans_eq s.size_eq.symm)
  simp [secure_key_operation, Nat.not_lt.mpr hn, hl, hl1]

/-- Initialisation always returns 0 and leaves 1024 zero bytes. -/
theorem init_eq (s : State) :
    ∃ r, secure_init s = some r ∧ r.ret = 0 ∧
      r.state.secure_buffer = List.replicate SECURE_BUFFER_SIZE 0 := by
  obtain ⟨l, hl, hl1⟩ := memset_eq (c := 0) (Nat.le_of_eq s.size_eq.symm)
  have hd : List.drop SECURE_BUFFER_SIZE s.secure_buffer = [] :=
    List.drop_eq_nil_of_le (Nat.le_of_eq s.size_eq)
  simp [secure_init, hl, hl1, hd]

theorem initial_state_head : initial_state.secure_buffer.head? = some 0 := by
  show (List.replicate (1023 + 1) 0).head? = some 0
  rw [List.replicate_succ]
  rfl

theorem take_set_self (l : List Nat) (i v : Nat) : (l.set i v).take i = l.take i := by
  apply List.ext_getElem?
  intro j
  rw [List.getElem?_take, List.getElem?_take]
  split
  · rw [List.getElem?_set_ne (by omega)]
  · rfl

/-- Closed form of the transformation loop: `k` iterations from index `i` write
the transformed bytes `i .. i + k - 1` and touch nothing else. -/
theorem compute_loop_eq (sb : List Nat) : ∀ (k i : Nat) (out : List Nat),
    i + k ≤ sb.length → i + k ≤ out.length →
    compute_loop sb k i out
      = some (out.take i ++ ((sb.drop i).take k).map (fun b => (b ^^^ 0xAA) % 256)
          ++ out.drop (i + k)) := by
  intro k
  induction k with
  | zero => intro i out _ _; simp [compute_loop]
  | succ k ih =>
    intro i out hs ho
    have hi : i < sb.length := by omega
    have hio : i < out.length := by omega
    have hget : sb[i]? = some sb[i] := List.getElem?_eq_getElem hi
    simp only [compute_loop, hget, hio, if_true]
    rw [ih (i + 1) _ (by omega) (by simp; omega)]
    congr 1
    rw [List.drop_eq_getElem_cons hi, List.take_succ_cons, List.map_cons]
    have h2 : i + 1 + k = i + (k + 1) := by omega
    rw [List.drop_set_of_lt _ _ (by omega), h2]
    congr 1
    rw [List.take_succ, List.getElem?_set_self hio, take_set_self]
    simp

/-- A computation with in-range arguments succeeds: the secure buffer receives
the first `n` input bytes, the output buffer receives their transforms. -/
theorem compute_eq (s : State) (inp out : List Nat) (n m : Nat)
    (hn : n ≤ SECURE_BUFFER_SIZE) (hi : n ≤ inp.length) (ho : n ≤ out.length) :
    ∃ r, secure_compute s (some inp) n (some out) m = some r ∧ r.ret = 0 ∧
      r.state.secure_buffer = inp.take n ++ s.secure_buffer.drop n ∧
      r.buffer = some ((inp.take n).map (fun b => (b ^^^ 0xAA) % 256) ++ out.drop n) := by
  obtain ⟨l, hl, hl1⟩ := memcpy_eq (hn.trans_eq s.size_eq.symm) hi
  have hlen : 0 + n ≤ l.1.length := by rw [l.2, s.size_eq]; omega
  have hloop := compute_loop_eq l.1 n 0 out hlen (by omega)
  have htake : List.take n l.1 = List.take n inp := by
    rw [hl1, List.take_append_of_le_length (by simp [hi])]
    simp
  simp only [List.take_zero, List.nil_append, List.drop_zero, Nat.zero_add, htake] at hloop
  simp only [secure_compute, gt_iff_lt, Nat.not_lt.mpr hn, if_false, hl, hloop]
  exact ⟨_, rfl, rfl, hl1, rfl⟩

/-! ## Secure store: round trip and lookups -/

/-- C1: for every prior content of the secure buffer, every non-null key id and
every payload `p` of at most 1024 bytes, a store of `p` followed by a retrieve
of `p.length` bytes under the same id returns 0 both times and leaves the first
`p.length` bytes of the caller's buffer equal to `p` (the whole buffer when it
holds exactly `p.length` bytes). -/
theorem store_retrieve_round_trip (s : State) (key_id : String) (p buf : List Nat)
    (hp : p.length ≤ SECURE_BUFFER_SIZE) (hb : p.length ≤ buf.length) :
    ∃ r1 r2, secure_key_operation s (some key_id) (some p) p.length 1 = some r1 ∧
      r1.ret = 0 ∧
      secure_key_operation r1.state (some key_id) (some buf) p.length 0 = some r2 ∧
      r2.ret = 0 ∧ r2.buffer = some (p ++ buf.drop p.length) ∧
      (buf.length = p.length → r2.buffer = some p) := by
  obtain ⟨r1, h1, hr1, hs1, _⟩ :=
    store_eq s key_id p p.length 1 (by decide) hp (Nat.le_refl _)
  have h2 := retrieve_eq r1.state key_id buf p.length hp hb
  refine ⟨r1, _, h1, hr1, h2, rfl, ?_, ?_⟩
  · simp [hs1]
  · intro hlen
    simp [hs1, ← hlen]

/-- Instance of the round trip: payload `[1, 2, 3]` under "k1" from the start-up state. -/
theorem store_retrieve_round_trip_witness :
    ([1, 2, 3] : List Nat).length ≤ SECURE_BUFFER_SIZE ∧
    ∃ r1 r2, secure_key_operation initial_state (some "k1") (some [1, 2, 3])
        ([1, 2, 3] : List Nat).length 1 = some r1 ∧
      r1.ret = 0 ∧
      secure_key_operation r1.state (some "k1") (some [7, 7, 7])
        ([1, 2, 3] : List Nat).length 0 = some r2 ∧
      r2.ret = 0 ∧ r2.buffer = some ([1, 2, 3] ++ ([7, 7, 7] : List Nat).drop
        ([1, 2, 3] : List Nat).length) ∧
      (([7, 7, 7] : List Nat).length = ([1, 2, 3] : List Nat).length →
        r2.buffer = some [1, 2, 3]) :=
  ⟨by decide,
    store_retrieve_round_trip initial_state "k1" [1, 2, 3] [7, 7, 7] (by decide) (by decide)⟩

/-- C2 (as stated, refuted): after `secure_init` and a successful store of
`[0x01, 0x02, 0x03]` under "k1", the retrieve under the never stored id "k2"
returns 0, not an error, and hands out the bytes stored under "k1". -/
theorem retrieve_unknown_id_returns_success :
    ∃ r0 r1 r2, secure_init initial_state = some r0 ∧
      secure_key_operation r0.state (some "k1") (some [0x01, 0x02, 0x03]) 3 1 = some r1 ∧
      r1.ret = 0 ∧
      secure_key_operation r1.state (some "k2") (some [0, 0, 0]) 3 0 = some r2 ∧
      r2.ret = 0 ∧ r2.buffer = some [0x01, 0x02, 0x03] := by
  obtain ⟨r0, h0, _, _⟩ := init_eq initial_state
  obtain ⟨r1, h1, hr1, hs1, _⟩ :=
    store_eq r0.state "k1" [0x01, 0x02, 0x03] 3 1 (by decide) (by decide) (by decide)
  have h2 := retrieve_eq r1.state "k2" [0, 0, 0] 3 (by decide) (by decide)
  refine ⟨r0, r1, _, h0, h1, hr1, h2, rfl, ?_⟩
  simp [hs1]

/-- C2 (amended): the store keeps no record of key ids, so a retrieve under an
id that was never stored does not fail: for every state and every two key ids,
after a store of `p` under `k1` a retrieve of `p.length` bytes under `k2`
returns 0 and yields `p`. -/
theorem retrieve_other_id_yields_last_store (s : State) (k1 k2 : String) (p buf : List Nat)
    (hp : p.length ≤ SECURE_BUFFER_SIZE) (hb : p.length ≤ buf.length) :
    ∃ r1 r2, secure_key_operation s (some k1) (some p) p.length 1 = some r1 ∧
      r1.ret = 0 ∧
      secure_key_operation r1.state (some k2) (some buf) p.length 0 = some r2 ∧
      r2.ret = 0 ∧ r2.buffer = some (p ++ buf.drop p.length) := by
  obtain ⟨r1, h1, hr1, hs1, _⟩ :=
    store_eq s k1 p p.length 1 (by decide) hp (Nat.le_refl _)
  have h2 := retrieve_eq r1.state k2 buf p.length hp hb
  refine ⟨r1, _, h1, hr1, h2, rfl, ?_⟩
  simp [hs1]

/-- Instance of the amended lookup: store under "k1", retrieve under "k2". -/
theorem retrieve_other_id_yields_last_store_witness :
    ([1, 2, 3] : List Nat).length ≤ SECURE_BUFFER_SIZE ∧
    ∃ r1 r2, secure_key_operation initial_state (some "k1") (some [1, 2, 3])
        ([1, 2, 3] : List Nat).length 1 = some r1 ∧
      r1.ret = 0 ∧
      secure_key_operation r1.state (some "k2") (some [0, 0, 0])
        ([1, 2, 3] : List Nat).length 0 = some r2 ∧
      r2.ret = 0 ∧ r2.buffer = some ([1, 2, 3] ++ ([0, 0, 0] : List Nat).drop
        ([1, 2, 3] : List Nat).length) :=
  ⟨by decide,
    retrieve_other_id_yields_last_store initial_state "k1" "k2" [1, 2, 3] [0, 0, 0]
      (by decide) (by decide)⟩

/-! ## Compute engine -/

/-- C3: `secure_compute` is deterministic and length preserving.  For every
input of length `n ≤ 1024`, any two prior states, any two output buffers of at
least `n` bytes and any declared output sizes, both runs return 0, the first
`n` output bytes of the two runs coincide, and the bytes behind them are the
ones the output buffer held before. -/
theorem secure_compute_deterministic (s1 s2 : State) (input out1 out2 : List Nat)
    (m1 m2 : Nat) (hn : input.length ≤ SECURE_BUFFER_SIZE)
    (h1 : input.length ≤ out1.length) (h2 : input.length ≤ out2.length) :
    ∃ r1 r2 o1 o2,
      secure_compute s1 (some input) input.length (some out1) m1 = some r1 ∧ r1.ret = 0 ∧
      r1.buffer = some o1 ∧
      secure_compute s2 (some input) input.length (some out2) m2 = some r2 ∧ r2.ret = 0 ∧
      r2.buffer = some o2 ∧
      o1.take input.length = o2.take input.length ∧
      (o1.take input.length).length = input.length ∧
      o1.drop input.length = out1.drop input.length ∧
      o2.drop input.length = out2.drop input.length := by
  obtain ⟨r1, hc1, hr1, _, hb1⟩ := compute_eq s1 input out1 input.length m1 hn (Nat.le_refl _) h1
  obtain ⟨r2, hc2, hr2, _, hb2⟩ := compute_eq s2 input out2 input.length m2 hn (Nat.le_refl _) h2
  refine ⟨r1, r2, _, _, hc1, hr1, hb1, hc2, hr2, hb2, ?_, ?_, ?_, ?_⟩ <;> simp

/-- Instance of determinism: input `[1, 2]` run from an all-zero and from an all-seven secure buffer. -/
theorem secure_compute_deterministic_witness :
    ([1, 2] : List Nat).length ≤ SECURE_BUFFER_SIZE ∧
    ∃ r1 r2 o1 o2,
      secure_compute initial_state (some [1, 2]) ([1, 2] : List Nat).length
        (some [0, 0, 5]) 3 = some r1 ∧ r1.ret = 0 ∧
      r1.buffer = some o1 ∧
      secure_compute ⟨List.replicate SECURE_BUFFER_SIZE 7, List.length_replicate _ _⟩
        (some [1, 2]) ([1, 2] : List Nat).length (some [9, 9]) 2 = some r2 ∧ r2.ret = 0 ∧
      r2.buffer = some o2 ∧
      o1.take ([1, 2] : List Nat).length = o2.take ([1, 2] : List Nat).length ∧
      (o1.take ([1, 2] : List Nat).length).length = ([1, 2] : List Nat).length ∧
      o1.drop ([1, 2] : List Nat).length = ([0, 0, 5] : List Nat).drop ([1, 2] : List Nat).length ∧
      o2.drop ([1, 2] : List Nat).length = ([9, 9] : List Nat).drop ([1, 2] : List Nat).length :=
  ⟨by decide,
    secure_compute_deterministic initial_state
      ⟨List.replicate SECURE_BUFFER_SIZE 7, List.length_replicate _ _⟩ [1, 2] [0, 0, 5] [9, 9] 3 2
      (by decide) (by decide) (by decide)⟩

/-- C5: `secure_compute` returns -1 exactly when the input is null, the output
is null or `input_size > 1024`; every oversized request is rejected; a call
that returns -1 leaves the output buffer and the secure buffer as they were,
and a call that returns anything else returns 0. -/
theorem secure_compute_error_iff (s : State) (input output : Option (List Nat))
    (input_size output_size : Nat) :
    ((∃ r, secure_compute s input input_size output output_size = some r ∧ r.ret = -1) ↔
      (input = none ∨ output = none ∨ input_size > SECURE_BUFFER_SIZE)) ∧
    ((input = none ∨ output = none ∨ input_size > SECURE_BUFFER_SIZE) →
      secure_compute s input input_size output output_size = some ⟨-1, s, output⟩) ∧
    (∀ r, secure_compute s input input_size output output_size = some r →
      (r.ret = -1 ∧ r.state = s ∧ r.buffer = output) ∨
      (r.ret = 0 ∧ input ≠ none ∧ output ≠ none ∧ input_size ≤ SECURE_BUFFER_SIZE)) := by
  have herr : (input = none ∨ output = none ∨ input_size > SECURE_BUFFER_SIZE) →
      secure_compute s input input_size output output_size = some ⟨-1, s, output⟩ := by
    intro h
    cases input with
    | none => simp [secure_compute]
    | some inp =>
      cases output with
      | none => simp [secure_compute]
      | some out =>
        have hgt : input_size > SECURE_BUFFER_SIZE := by simpa using h
        simp [secure_compute, hgt]
  have hall : ∀ r, secure_compute s input input_size output output_size = some r →
      (r.ret = -1 ∧ r.state = s ∧ r.buffer = output) ∨
      (r.ret = 0 ∧ input ≠ none ∧ output ≠ none ∧ input_size ≤ SECURE_BUFFER_SIZE) := by
    intro r hr
    by_cases h : input = none ∨ output = none ∨ input_size > SECURE_BUFFER_SIZE
    · rw [herr h] at hr
      cases hr
      exact Or.inl ⟨rfl, rfl, rfl⟩
    · right
      cases input with
      | none => simp at h
      | some inp =>
        cases output with
        | none => simp at h
        | some out =>
          have hle : ¬ input_size > SECURE_BUFFER_SIZE := by simpa using h
          simp only [secure_compute, hle, if_false] at hr
          split at hr
          · cases hr
          · split at hr
            · cases hr
            · cases hr
              exact ⟨rfl, by simp, by simp, Nat.not_lt.mp hle⟩
  refine ⟨⟨?_, ?_⟩, herr, hall⟩
  · rintro ⟨r, hr, hret⟩
    rcases hall r hr with h | ⟨h0, _⟩
    · by_contra hc
      cases input with
      | none => simp at hc
      | some inp =>
        cases output with
        | none => simp at hc
        | some out =>
          have hle : ¬ input_size > SECURE_BUFFER_SIZE := by simpa using hc
          simp only [secure_compute, hle, if_false] at hr
          split at hr
          · cases hr
          · split at hr
            · cases hr
            · cases hr
              simp at hret
    · rw [h0] at hret
      cases hret
  · intro h
    exact ⟨_, herr h, rfl⟩

/-! ## Secure store: overwriting, initialisation and error returns -/

/-- C6 (as stated, refuted): after a store of `[1, 2, 3]` under "k1" and a
store of `[9]` under "k2", a retrieve of three bytes under "k2" returns 0 and
positions 1 and 2 of the result hold the bytes `2, 3` of the first payload. -/
theorem retrieve_returns_stale_bytes :
    ∃ r1 r2 r3,
      secure_key_operation initial_state (some "k1") (some [1, 2, 3]) 3 1 = some r1 ∧
      r1.ret = 0 ∧
      secure_key_operation r1.state (some "k2") (some [9]) 1 1 = some r2 ∧ r2.ret = 0 ∧
      secure_key_operation r2.state (some "k2") (some [0, 0, 0]) 3 0 = some r3 ∧
      r3.ret = 0 ∧ r3.buffer = some [9, 2, 3] := by
  obtain ⟨r1, h1, hr1, hs1, _⟩ :=
    store_eq initial_state "k1" [1, 2, 3] 3 1 (by decide) (by decide) (by decide)
  obtain ⟨r2, h2, hr2, hs2, _⟩ :=
    store_eq r1.state "k2" [9] 1 1 (by decide) (by decide) (by decide)
  have h3 := retrieve_eq r2.state "k2" [0, 0, 0] 3 (by decide) (by decide)
  refine ⟨r1, r2, _, h1, hr1, h2, hr2, h3, rfl, ?_⟩
  simp [hs2, hs1]

/-- C6 (amended): a store does not zeroize.  For all payloads `p1`, `p2` with
`p2.length < p1.length ≤ 1024` and all key ids, after a store of `p1` under
`k1` and a store of `p2` under `k2`, a retrieve of `p1.length` bytes under `k2`
returns 0 and yields `p2` followed by the bytes of `p1` at positions
`p2.length .. p1.length - 1`. -/
theorem retrieve_after_shorter_store (s : State) (k1 k2 : String) (p1 p2 buf : List Nat)
    (hlt : p2.length < p1.length) (hp : p1.length ≤ SECURE_BUFFER_SIZE)
    (hb : p1.length ≤ buf.length) :
    ∃ r1 r2 r3, secure_key_operation s (some k1) (some p1) p1.length 1 = some r1 ∧
      r1.ret = 0 ∧
      secure_key_operation r1.state (some k2) (some p2) p2.length 1 = some r2 ∧
      r2.ret = 0 ∧
      secure_key_operation r2.state (some k2) (some buf) p1.length 0 = some r3 ∧
      r3.ret = 0 ∧
      r3.buffer = some (p2 ++ p1.drop p2.length ++ buf.drop p1.length) := by
  obtain ⟨r1, h1, hr1, hs1, _⟩ :=
    store_eq s k1 p1 p1.length 1 (by decide) hp (Nat.le_refl _)
  obtain ⟨r2, h2, hr2, hs2, _⟩ :=
    store_eq r1.state k2 p2 p2.length 1 (by decide) (by omega) (Nat.le_refl _)
  have h3 := retrieve_eq r2.state k2 buf p1.length hp hb
  refine ⟨r1, r2, _, h1, hr1, h2, hr2, h3, rfl, ?_⟩
  have hsb : r2.state.secure_buffer
      = p2 ++ p1.drop p2.length ++ s.secure_buffer.drop p1.length := by
    rw [hs2, hs1, List.take_length, List.take_length,
      List.drop_append_of_le_length (Nat.le_of_lt hlt), List.append_assoc]
  have hlen : (p2 ++ p1.drop p2.length).length = p1.length := by
    rw [List.length_append, List.length_drop]; omega
  have htk : List.take p1.length r2.state.secure_buffer = p2 ++ p1.drop p2.length := by
    rw [hsb, ← hlen, List.take_left]
  simp only [htk]

/-- Instance of the overwrite rule: `[1, 2, 3]` under "k1", then `[9]` under "k2". -/
theorem retrieve_after_shorter_store_witness :
    ([9] : List Nat).length < ([1, 2, 3] : List Nat).length ∧
    ∃ r1 r2 r3, secure_key_operation initial_state (some "k1") (some [1, 2, 3])
        ([1, 2, 3] : List Nat).length 1 = some r1 ∧
      r1.ret = 0 ∧
      secure_key_operation r1.state (some "k2") (some [9]) ([9] : List Nat).length 1
        = some r2 ∧
      r2.ret = 0 ∧
      secure_key_operation r2.state (some "k2") (some [0, 0, 0])
        ([1, 2, 3] : List Nat).length 0 = some r3 ∧
      r3.ret = 0 ∧
      r3.buffer = some ([9] ++ ([1, 2, 3] : List Nat).drop ([9] : List Nat).length
        ++ ([0, 0, 0] : List Nat).drop ([1, 2, 3] : List Nat).length) :=
  ⟨by decide,
    retrieve_after_shorter_store initial_state "k1" "k2" [1, 2, 3] [9] [0, 0, 0]
      (by decide) (by decide) (by decide)⟩

/-- C7: for every prior state `secure_init` returns 0 and leaves 1024 zero
bytes in the secure buffer; a second call returns 0 with the same state; and a
retrieve of `n ≤ 1024` bytes directly after it returns 0 and yields `n` zero
bytes. -/
theorem secure_init_zeroes_storage (s : State) (key_id : String) (buf : List Nat) (n : Nat)
    (hn : n ≤ SECURE_BUFFER_SIZE) (hb : n ≤ buf.length) :
    ∃ r r2 r3, secure_init s = some r ∧ r.ret = 0 ∧
      r.state.secure_buffer = List.replicate 1024 0 ∧
      r.state.secure_buffer.length = 1024 ∧ (∀ b ∈ r.state.secure_buffer, b = 0) ∧
      secure_init r.state = some r2 ∧ r2.ret = 0 ∧ r2.state = r.state ∧
      secure_key_operation r.state (some key_id) (some buf) n 0 = some r3 ∧ r3.ret = 0 ∧
      r3.buffer = some (List.replicate n 0 ++ buf.drop n) := by
  obtain ⟨r, h, hr, hs⟩ := init_eq s
  obtain ⟨r2, h2, hr2, hs2⟩ := init_eq r.state
  have h3 := retrieve_eq r.state key_id buf n hn hb
  refine ⟨r, r2, _, h, hr, hs, ?_, ?_, h2, hr2, ?_, h3, rfl, ?_⟩
  · rw [hs, List.length_replicate]; rfl
  · intro b hb0
    rw [hs] at hb0
    exact (List.mem_replicate.mp hb0).2
  · exact State.eq_of_buffer (hs2.trans hs.symm)
  · have hmin : min n SECURE_BUFFER_SIZE = n := Nat.min_eq_left hn
    simp [hs, List.take_replicate, hmin]

/-- Instance of initialisation from an all-seven secure buffer, followed by a three byte retrieve. -/
theorem secure_init_zeroes_storage_witness :
    (3 ≤ SECURE_BUFFER_SIZE) ∧
    ∃ r r2 r3, secure_init ⟨List.replicate SECURE_BUFFER_SIZE 7, List.length_replicate _ _⟩
        = some r ∧ r.ret = 0 ∧
      r.state.secure_buffer = List.replicate 1024 0 ∧
      r.state.secure_buffer.length = 1024 ∧ (∀ b ∈ r.state.secure_buffer, b = 0) ∧
      secure_init r.state = some r2 ∧ r2.ret = 0 ∧ r2.state = r.state ∧
      secure_key_operation r.state (some "k1") (some [5, 5, 5]) 3 0 = some r3 ∧ r3.ret = 0 ∧
      r3.buffer = some (List.replicate 3 0 ++ ([5, 5, 5] : List Nat).drop 3) :=
  ⟨by decide,
    secure_init_zeroes_storage ⟨List.replicate SECURE_BUFFER_SIZE 7, List.length_replicate _ _⟩
      "k1" [5, 5, 5] 3 (by decide) (by decide)⟩

/-- C8: in store mode and in retrieve mode `secure_key_operation` returns -1
exactly when `key_id` is null, `key` is null or `key_size > 1024`; a call that
returns -1 leaves the secure buffer and the caller's key buffer as they were,
and a call that returns anything else returns 0. -/
theorem secure_key_operation_error_iff (s : State) (key_id : Option String)
    (key : Option (List Nat)) (key_size : Nat) (is_store : Int) :
    ((∃ r, secure_key_operation s key_id key key_size is_store = some r ∧ r.ret = -1) ↔
      (key_id = none ∨ key = none ∨ key_size > SECURE_BUFFER_SIZE)) ∧
    ((key_id = none ∨ key = none ∨ key_size > SECURE_BUFFER_SIZE) →
      secure_key_operation s key_id key key_size is_store = some ⟨-1, s, key⟩) ∧
    (∀ r, secure_key_operation s key_id key key_size is_store = some r →
      (r.ret = -1 ∧ r.state = s ∧ r.buffer = key) ∨
      (r.ret = 0 ∧ key_id ≠ none ∧ key ≠ none ∧ key_size ≤ SECURE_BUFFER_SIZE)) := by
  have herr : (key_id = none ∨ key = none ∨ key_size > SECURE_BUFFER_SIZE) →
      secure_key_operation s key_id key key_size is_store = some ⟨-1, s, key⟩ := by
    intro h
    cases key_id with
    | none => simp [secure_key_operation]
    | some id =>
      cases key with
      | none => simp [secure_key_operation]
      | some k =>
        have hgt : key_size > SECURE_BUFFER_SIZE := by simpa using h
        simp [secure_key_operation, hgt]
  have hok : ¬ (key_id = none ∨ key = none ∨ key_size > SECURE_BUFFER_SIZE) →
      ∀ r, secure_key_operation s key_id key key_size is_store = some r →
        r.ret = 0 ∧ key_id ≠ none ∧ key ≠ none ∧ key_size ≤ SECURE_BUFFER_SIZE := by
    intro h r hr
    cases key_id with
    | none => simp at h
    | some id =>
      cases key with
      | none => simp at h
      | some k =>
        have hle : ¬ key_size > SECURE_BUFFER_SIZE := by simpa using h
        simp only [secure_key_operation, hle, if_false] at hr
        split at hr
        · split at hr
          · cases hr
          · cases hr
            exact ⟨rfl, by simp, by simp, Nat.not_lt.mp hle⟩
        · split at hr
          · cases hr
          · cases hr
            exact ⟨rfl, by simp, by simp, Nat.not_lt.mp hle⟩
  refine ⟨⟨?_, ?_⟩, herr, ?_⟩
  · rintro ⟨r, hr, hret⟩
    by_contra hc
    have h0 := (hok hc r hr).1
    rw [h0] at hret
    cases hret
  · intro h
    exact ⟨_, herr h, rfl⟩
  · intro r hr
    by_cases h : key_id = none ∨ key = none ∨ key_size > SECURE_BUFFER_SIZE
    · rw [herr h] at hr
      cases hr
      exact Or.inl ⟨rfl, rfl, rfl⟩
    · exact Or.inr (hok h r hr)

/-- C9 (as stated, refuted): a store of `[1, 2, 3]` under the empty key id
returns 0 and changes the secure buffer. -/
theorem store_empty_key_id_accepted :
    ∃ r, secure_key_operation initial_state (some "") (some [1, 2, 3]) 3 1 = some r ∧
      r.ret = 0 ∧ r.state.secure_buffer ≠ initial_state.secure_buffer ∧
      r.state.secure_buffer.take 3 = [1, 2, 3] := by
  obtain ⟨r, h, hr, hs, _⟩ :=
    store_eq initial_state "" [1, 2, 3] 3 1 (by decide) (by decide) (by decide)
  refine ⟨r, h, hr, ?_, ?_⟩
  · intro hc
    have hh := congrArg List.head? hc
    rw [hs, initial_state_head] at hh
    simp at hh
  · simp [hs]

/-- C9 (amended): only a null key id is rejected.  For every payload of at most
1024 bytes a store under the empty key id returns 0 and copies the payload over
the first bytes of the secure buffer, while a store under the null key id
returns -1 and leaves the secure buffer unchanged. -/
theorem store_empty_key_id (s : State) (payload : List Nat)
    (hp : payload.length ≤ SECURE_BUFFER_SIZE) :
    (∃ r, secure_key_operation s (some "") (some payload) payload.length 1 = some r ∧
      r.ret = 0 ∧
      r.state.secure_buffer = payload ++ s.secure_buffer.drop payload.length) ∧
    secure_key_operation s none (some payload) payload.length 1
      = some ⟨-1, s, some payload⟩ := by
  obtain ⟨r, h, hr, hs, _⟩ :=
    store_eq s "" payload payload.length 1 (by decide) hp (Nat.le_refl _)
  refine ⟨⟨r, h, hr, ?_⟩, ?_⟩
  · rw [hs, List.take_length]
  · simp [secure_key_operation]

/-- Instance of the key id guard: payload `[1, 2, 3]` under the empty and under the null key id. -/
theorem store_empty_key_id_witness :
    ([1, 2, 3] : List Nat).length ≤ SECURE_BUFFER_SIZE ∧
    ((∃ r, secure_key_operation initial_state (some "") (some [1, 2, 3])
        ([1, 2, 3] : List Nat).length 1 = some r ∧
      r.ret = 0 ∧
      r.state.secure_buffer
        = [1, 2, 3] ++ initial_state.secure_buffer.drop ([1, 2, 3] : List Nat).length) ∧
    secure_key_operation initial_state none (some [1, 2, 3]) ([1, 2, 3] : List Nat).length 1
      = some ⟨-1, initial_state, some [1, 2, 3]⟩) :=
  ⟨by decide, store_empty_key_id initial_state [1, 2, 3] (by decide)⟩

/-- C10 (as stated, refuted): after a store of the three byte payload
`[1, 2, 3]` under "k1", a retrieve under "k1" with room for two bytes returns 0
and yields the truncated prefix `[1, 2]`. -/
theorem retrieve_small_capacity_truncates :
    ∃ r1 r2,
      secure_key_operation initial_state (some "k1") (some [1, 2, 3]) 3 1 = some r1 ∧
      r1.ret = 0 ∧
      secure_key_operation r1.state (some "k1") (some [0, 0]) 2 0 = some r2 ∧
      r2.ret = 0 ∧ r2.buffer = some [1, 2] := by
  obtain ⟨r1, h1, hr1, hs1, _⟩ :=
    store_eq initial_state "k1" [1, 2, 3] 3 1 (by decide) (by decide) (by decide)
  have h2 := retrieve_eq r1.state "k1" [0, 0] 2 (by decide) (by decide)
  refine ⟨r1, _, h1, hr1, h2, rfl, ?_⟩
  simp [hs1]

/-- C10 (amended): the store keeps no payload length, so a retrieve with a
capacity `m` below the stored length `n` does not fail: it returns 0 and yields
the first `m` bytes of the payload. -/
theorem retrieve_small_capacity (s : State) (key_id : String) (p buf : List Nat) (m : Nat)
    (hp : p.length ≤ SECURE_BUFFER_SIZE) (hm : m < p.length) (hb : m ≤ buf.length) :
    ∃ r1 r2, secure_key_operation s (some key_id) (some p) p.length 1 = some r1 ∧
      r1.ret = 0 ∧
      secure_key_operation r1.state (some key_id) (some buf) m 0 = some r2 ∧
      r2.ret = 0 ∧ r2.buffer = some (p.take m ++ buf.drop m) := by
  obtain ⟨r1, h1, hr1, hs1, _⟩ :=
    store_eq s key_id p p.length 1 (by decide) hp (Nat.le_refl _)
  have h2 := retrieve_eq r1.state key_id buf m (by omega) hb
  refine ⟨r1, _, h1, hr1, h2, rfl, ?_⟩
  have htk : List.take m r1.state.secure_buffer = List.take m p := by
    rw [hs1, List.take_length, List.take_append_of_le_length (Nat.le_of_lt hm)]
  simp only [htk]

/-- Instance of the short retrieve: three bytes stored, two bytes retrieved. -/
theorem retrieve_small_capacity_witness :
    ([1, 2, 3] : List Nat).length ≤ SECURE_BUFFER_SIZE ∧ 2 < ([1, 2, 3] : List Nat).length ∧
    ∃ r1 r2, secure_key_operation initial_state (some "k1") (some [1, 2, 3])
        ([1, 2, 3] : List Nat).length 1 = some r1 ∧
      r1.ret = 0 ∧
      secure_key_operation r1.state (some "k1") (some [0, 0]) 2 0 = some r2 ∧
      r2.ret = 0 ∧ r2.buffer = some (([1, 2, 3] : List Nat).take 2 ++ ([0, 0] : List Nat).drop 2) :=
  ⟨by decide, by decide,
    retrieve_small_capacity initial_state "k1" [1, 2, 3] [0, 0] 2
      (by decide) (by decide) (by decide)⟩

/-! ## Attestation -/

/-- Closed form of the token loop: `k` iterations from index `i` write the
bytes `j ^ 0x55` for `j = i .. i + k - 1` and touch nothing else. -/
theorem attestation_loop_eq : ∀ (k i : Nat) (tok : List Nat), i + k ≤ tok.length →
    attestation_loop k i tok
      = some (tok.take i ++ (List.range' i k).map (fun j => (j ^^^ 0x55) % 256)
          ++ tok.drop (i + k)) := by
  intro k
  induction k with
  | zero => intro i tok _; simp [attestation_loop]
  | succ k ih =>
    intro i tok hl
    have hi : i < tok.length := by omega
    simp only [attestation_loop, hi, if_true]
    rw [ih (i + 1) _ (by simp; omega)]
    congr 1
    have h2 : i + 1 + k = i + (k + 1) := by omega
    rw [List.drop_set_of_lt _ _ (by omega), h2, List.range'_succ, List.map_cons]
    congr 1
    rw [List.take_succ, List.getElem?_set_self hi, take_set_self]
    simp

/-- The 32 token bytes, spelled out; none of them is cut by the store into a
byte. -/
theorem token_pattern_eq :
    (List.range' 0 32).map (fun j => (j ^^^ 0x55) % 256)
      = [85, 84, 87, 86, 81, 80, 83, 82, 93, 92, 95, 94, 89, 88, 91, 90,
         69, 68, 71, 70, 65, 64, 67, 66, 77, 76, 79, 78, 73, 72, 75, 74] := by
  decide

/-- An attestation request with a non-null buffer of at least 32 bytes and a
declared size of at least 32 succeeds, writes the fixed pattern into the first
32 bytes and leaves the state as it was. -/
theorem attest_eq (s : State) (tok : List Nat) (n : Nat) (hn : 32 ≤ n)
    (hl : 32 ≤ tok.length) :
    generate_attestation s (some tok) n
      = some ⟨0, s, some ([85, 84, 87, 86, 81, 80, 83, 82, 93, 92, 95, 94, 89, 88, 91, 90,
          69, 68, 71, 70, 65, 64, 67, 66, 77, 76, 79, 78, 73, 72, 75, 74] ++ tok.drop 32)⟩ := by
  have hloop := attestation_loop_eq 32 0 tok (by omega)
  rw [token_pattern_eq] at hloop
  simp only [List.take_zero, List.nil_append, Nat.zero_add] at hloop
  simp only [generate_attestation, Nat.not_lt.mpr hn, if_false, hloop]

/-- C11: attestation is deterministic.  For any two states of the secure
buffer (whatever calls produced them) and any two token buffers that hold
their declared size of at least 32 bytes, both calls return 0 and write the
same 32 bytes. -/
theorem generate_attestation_deterministic (s1 s2 : State) (tok1 tok2 : List Nat)
    (n1 n2 : Nat) (h1 : 32 ≤ n1) (h2 : 32 ≤ n2) (hl1 : n1 ≤ tok1.length)
    (hl2 : n2 ≤ tok2.length) :
    ∃ r1 r2 t1 t2, generate_attestation s1 (some tok1) n1 = some r1 ∧ r1.ret = 0 ∧
      r1.buffer = some t1 ∧
      generate_attestation s2 (some tok2) n2 = some r2 ∧ r2.ret = 0 ∧
      r2.buffer = some t2 ∧
      t1.take 32 = t2.take 32 ∧ (t1.take 32).length = 32 := by
  refine ⟨_, _, _, _, attest_eq s1 tok1 n1 h1 (by omega), rfl, rfl,
    attest_eq s2 tok2 n2 h2 (by omega), rfl, rfl, ?_, ?_⟩
  · simp
  · simp

/-- Instance of determinism: an all-zero state with a 32 byte buffer and an
all-seven state with a 33 byte buffer. -/
theorem generate_attestation_deterministic_witness :
    ∃ r1 r2 t1 t2, generate_attestation initial_state (some (List.replicate 32 0)) 32
        = some r1 ∧ r1.ret = 0 ∧
      r1.buffer = some t1 ∧
      generate_attestation ⟨List.replicate SECURE_BUFFER_SIZE 7, List.length_replicate _ _⟩
        (some (List.replicate 33 9)) 33 = some r2 ∧ r2.ret = 0 ∧
      r2.buffer = some t2 ∧
      t1.take 32 = t2.take 32 ∧ (t1.take 32).length = 32 :=
  generate_attestation_deterministic initial_state
    ⟨List.replicate SECURE_BUFFER_SIZE 7, List.length_replicate _ _⟩
    (List.replicate 32 0) (List.replicate 33 9) 32 33 (by decide) (by decide)
    (by simp) (by simp)

/-- C12 (as stated, refuted): in the state directly after `secure_init`, with
no key stored, `generate_attestation` on a 32 byte buffer returns 0 and writes
the token. -/
theorem attestation_without_key_succeeds :
    ∃ r0 r, secure_init initial_state = some r0 ∧
      generate_attestation r0.state (some (List.replicate 32 0)) 32 = some r ∧
      r.ret = 0 ∧
      r.buffer = some [85, 84, 87, 86, 81, 80, 83, 82, 93, 92, 95, 94, 89, 88, 91, 90,
        69, 68, 71, 70, 65, 64, 67, 66, 77, 76, 79, 78, 73, 72, 75, 74] := by
  obtain ⟨r0, h0, _, _⟩ := init_eq initial_state
  refine ⟨r0, _, h0, attest_eq r0.state (List.replicate 32 0) 32 (by decide) (by simp),
    rfl, ?_⟩
  simp

/-- C12 (amended): attestation uses no key.  In the state directly after
`secure_init`, whatever the state before, `generate_attestation` on a buffer
that holds its declared size of at least 32 bytes returns 0, writes the fixed
32 byte pattern and leaves the state as `secure_init` left it. -/
theorem attestation_after_init (s : State) (tok : List Nat) (n : Nat) (hn : 32 ≤ n)
    (hl : n ≤ tok.length) :
    ∃ r0 r, secure_init s = some r0 ∧
      generate_attestation r0.state (some tok) n = some r ∧ r.ret = 0 ∧
      r.state = r0.state ∧
      r.buffer = some ([85, 84, 87, 86, 81, 80, 83, 82, 93, 92, 95, 94, 89, 88, 91, 90,
        69, 68, 71, 70, 65, 64, 67, 66, 77, 76, 79, 78, 73, 72, 75, 74] ++ tok.drop 32) := by
  obtain ⟨r0, h0, _, _⟩ := init_eq s
  exact ⟨r0, _, h0, attest_eq r0.state tok n hn (by omega), rfl, rfl, rfl⟩

/-- Instance of attestation after initialisation with a 33 byte buffer. -/
theorem attestation_after_init_witness :
    ∃ r0 r, secure_init initial_state = some r0 ∧
      generate_attestation r0.state (some (List.replicate 33 9)) 33 = some r ∧ r.ret = 0 ∧
      r.state = r0.state ∧
      r.buffer = some ([85, 84, 87, 86, 81, 80, 83, 82, 93, 92, 95, 94, 89, 88, 91, 90,
        69, 68, 71, 70, 65, 64, 67, 66, 77, 76, 79, 78, 73, 72, 75, 74]
        ++ (List.replicate 33 9).drop 32) :=
  attestation_after_init initial_state (List.replicate 33 9) 33 (by decide) (by simp)

/-! ## Behaviour of the code as written -/

/-- C13 (as stated, refuted): in the start-up state, before any `secure_init`,
a store of `[1, 2, 3]` returns 0 and a retrieve of three bytes returns 0. -/
theorem key_operation_before_init_succeeds :
    (∃ r, secure_key_operation initial_state (some "k1") (some [1, 2, 3]) 3 1 = some r ∧
      r.ret = 0) ∧
    (∃ r, secure_key_operation initial_state (some "k1") (some [5, 5, 5]) 3 0 = some r ∧
      r.ret = 0) := by
  obtain ⟨r, h, hr, _, _⟩ :=
    store_eq initial_state "k1" [1, 2, 3] 3 1 (by decide) (by decide) (by decide)
  exact ⟨⟨r, h, hr⟩,
    ⟨_, retrieve_eq initial_state "k1" [5, 5, 5] 3 (by decide) (by decide), rfl⟩⟩

/-- C13 (amended): the code keeps no record of initialisation.  In the start-up
state, before any `secure_init`, a store with valid arguments returns 0 and
copies the payload into the secure buffer, and a retrieve with valid arguments
returns 0 and yields `n` zero bytes, the zero-initialised static buffer. -/
theorem key_operation_before_init (key_id : String) (k : List Nat) (n : Nat) (f : Int)
    (hf : f ≠ 0) (hn : n ≤ SECURE_BUFFER_SIZE) (hk : n ≤ k.length) :
    (∃ r, secure_key_operation initial_state (some key_id) (some k) n f = some r ∧
      r.ret = 0 ∧
      r.state.secure_buffer = k.take n ++ initial_state.secure_buffer.drop n) ∧
    secure_key_operation initial_state (some key_id) (some k) n 0
      = some ⟨0, initial_state, some (List.replicate n 0 ++ k.drop n)⟩ := by
  obtain ⟨r, h, hr, hs, _⟩ := store_eq initial_state key_id k n f hf hn hk
  refine ⟨⟨r, h, hr, hs⟩, ?_⟩
  rw [retrieve_eq initial_state key_id k n hn hk]
  have hmin : min n SECURE_BUFFER_SIZE = n := Nat.min_eq_left hn
  have htk : List.take n initial_state.secure_buffer = List.replicate n 0 := by
    show List.take n (List.replicate SECURE_BUFFER_SIZE 0) = List.replicate n 0
    rw [List.take_replicate, hmin]
  rw [htk]

/-- Instance of the start-up behaviour: three bytes stored and retrieved under
"k1". -/
theorem key_operation_before_init_witness :
    (3 ≤ SECURE_BUFFER_SIZE) ∧
    ((∃ r, secure_key_operation initial_state (some "k1") (some [1, 2, 3]) 3 1 = some r ∧
      r.ret = 0 ∧
      r.state.secure_buffer
        = ([1, 2, 3] : List Nat).take 3 ++ initial_state.secure_buffer.drop 3) ∧
    secure_key_operation initial_state (some "k1") (some [1, 2, 3]) 3 0
      = some ⟨0, initial_state, some (List.replicate 3 0 ++ ([1, 2, 3] : List Nat).drop 3)⟩) :=
  ⟨by decide,
    key_operation_before_init "k1" [1, 2, 3] 3 1 (by decide) (by decide) (by decide)⟩

/-- A byte keeps its transform when the transform is stored into a byte. -/
theorem xor_byte_lt (b : Nat) (hb : b < 256) : b ^^^ 0xAA < 256 :=
  Nat.xor_lt_two_pow (n := 8) hb (by decide)

theorem map_xor_mod (l : List Nat) (hl : ∀ b ∈ l, b < 256) :
    l.map (fun b => (b ^^^ 0xAA) % 256) = l.map (fun b => b ^^^ 0xAA) := by
  apply List.map_congr_left
  intro b hb
  exact Nat.mod_eq_of_lt (xor_byte_lt b (hl b hb))

/-- C14: `secure_compute` is the byte-wise XOR with `0xAA`.  For every input of
`n ≤ 1024` bytes and every output buffer of at least `n` bytes the call returns
0, `output[i] = input[i] ^ 0xAA` for `i < n`, output bytes at index `≥ n` are
unchanged, the first `n` bytes of the secure buffer equal the input and the
secure buffer bytes at index `≥ n` are unchanged. -/
theorem secure_compute_xor_reference (s : State) (input out : List Nat) (m : Nat)
    (hbytes : ∀ b ∈ input, b < 256) (hn : input.length ≤ SECURE_BUFFER_SIZE)
    (ho : input.length ≤ out.length) :
    ∃ r o, secure_compute s (some input) input.length (some out) m = some r ∧ r.ret = 0 ∧
      r.buffer = some o ∧ o.length = out.length ∧
      (∀ i, i < input.length → o[i]? = input[i]?.map (fun b => b ^^^ 0xAA)) ∧
      (∀ i, input.length ≤ i → o[i]? = out[i]?) ∧
      (∀ i, i < input.length → r.state.secure_buffer[i]? = input[i]?) ∧
      (∀ i, input.length ≤ i → r.state.secure_buffer[i]? = s.secure_buffer[i]?) := by
  obtain ⟨r, hc, hr, hs, hb⟩ := compute_eq s input out input.length m hn (Nat.le_refl _) ho
  rw [List.take_length] at hs hb
  rw [map_xor_mod input hbytes] at hb
  refine ⟨r, _, hc, hr, hb, ?_, ?_, ?_, ?_, ?_⟩
  · rw [List.length_append, List.length_map, List.length_drop]; omega
  · intro i hi
    rw [List.getElem?_append_left (by simpa using hi), List.getElem?_map]
  · intro i hi
    rw [List.getElem?_append_right (by simpa using hi), List.getElem?_drop, List.length_map]
    congr 1
    omega
  · intro i hi
    rw [hs, List.getElem?_append_left hi]
  · intro i hi
    rw [hs, List.getElem?_append_right hi, List.getElem?_drop]
    congr 1
    omega

/-- Instance of the XOR reference: input `[1, 2]`, a three byte output buffer. -/
theorem secure_compute_xor_reference_witness :
    (∀ b ∈ ([1, 2] : List Nat), b < 256) ∧
    ∃ r o, secure_compute initial_state (some [1, 2]) ([1, 2] : List Nat).length
        (some [0, 0, 5]) 3 = some r ∧ r.ret = 0 ∧
      r.buffer = some o ∧ o.length = ([0, 0, 5] : List Nat).length ∧
      (∀ i, i < ([1, 2] : List Nat).length →
        o[i]? = ([1, 2] : List Nat)[i]?.map (fun b => b ^^^ 0xAA)) ∧
      (∀ i, ([1, 2] : List Nat).length ≤ i → o[i]? = ([0, 0, 5] : List Nat)[i]?) ∧
      (∀ i, i < ([1, 2] : List Nat).length →
        r.state.secure_buffer[i]? = ([1, 2] : List Nat)[i]?) ∧
      (∀ i, ([1, 2] : List Nat).length ≤ i →
        r.state.secure_buffer[i]? = initial_state.secure_buffer[i]?) :=
  ⟨by decide,
    secure_compute_xor_reference initial_state [1, 2] [0, 0, 5] 3
      (by decide) (by decide) (by decide)⟩

/-- C15: `generate_attestation` returns -1 exactly when `token` is null or
`token_size < 32`, and then the token buffer and the secure buffer are
unchanged; with a buffer that holds its declared size of at least 32 bytes it
returns 0, sets `token[i] = i ^ 0x55` for `i < 32`, leaves the token bytes at
index `≥ 32` and the secure buffer unchanged.  The 32 values are
`0x55, 0x54, 0x57, ...`, pairwise distinct and below 256. -/
theorem generate_attestation_spec (s : State) (token : Option (List Nat)) (token_size : Nat)
    (tok : List Nat) (n : Nat) (hn : 32 ≤ n) (hl : n ≤ tok.length) :
    ((∃ r, generate_attestation s token token_size = some r ∧ r.ret = -1) ↔
      (token = none ∨ token_size < 32)) ∧
    ((token = none ∨ token_size < 32) →
      generate_attestation s token token_size = some ⟨-1, s, token⟩) ∧
    (∃ t, generate_attestation s (some tok) n = some ⟨0, s, some t⟩ ∧
      t.take 32 = (List.range 32).map (fun i => i ^^^ 0x55) ∧
      t.drop 32 = tok.drop 32 ∧ t.length = tok.length) ∧
    (List.range 32).map (fun i => i ^^^ 0x55)
      = [0x55, 0x54, 0x57, 0x56, 0x51, 0x50, 0x53, 0x52, 0x5D, 0x5C, 0x5F, 0x5E, 0x59, 0x58,
         0x5B, 0x5A, 0x45, 0x44, 0x47, 0x46, 0x41, 0x40, 0x43, 0x42, 0x4D, 0x4C, 0x4F, 0x4E,
         0x49, 0x48, 0x4B, 0x4A] ∧
    ((List.range 32).map (fun i => i ^^^ 0x55)).Nodup ∧
    (∀ b ∈ (List.range 32).map (fun i => i ^^^ 0x55), b < 256) := by
  have herr : (token = none ∨ token_size < 32) →
      generate_attestation s token token_size = some ⟨-1, s, token⟩ := by
    intro h
    cases token with
    | none => simp [generate_attestation]
    | some t0 =>
      have hlt : token_size < 32 := by simpa using h
      simp [generate_attestation, hlt]
  have hpat : (List.range 32).map (fun i => i ^^^ 0x55)
      = [85, 84, 87, 86, 81, 80, 83, 82, 93, 92, 95, 94, 89, 88, 91, 90,
         69, 68, 71, 70, 65, 64, 67, 66, 77, 76, 79, 78, 73, 72, 75, 74] := by decide
  refine ⟨⟨?_, fun h => ⟨_, herr h, rfl⟩⟩, herr, ?_, ?_, ?_, ?_⟩
  · rintro ⟨r, hr, hret⟩
    by_contra hc
    cases token with
    | none => simp at hc
    | some t0 =>
      have hge : ¬ token_size < 32 := by simpa using hc
      simp only [generate_attestation, hge, if_false] at hr
      split at hr
      · cases hr
      · cases hr
        simp at hret
  · refine ⟨_, attest_eq s tok n hn (by omega), ?_, ?_, ?_⟩
    · rw [hpat]; rfl
    · rfl
    · simp only [List.length_append, List.length_drop, List.length_cons, List.length_nil]
      omega
  · exact hpat
  · rw [hpat]; decide
  · rw [hpat]; decide

/-- Instance of the attestation contract: a null token for the error side, a
33 byte buffer for the success side. -/
theorem generate_attestation_spec_witness :
    ((∃ r, generate_attestation initial_state none 40 = some r ∧ r.ret = -1) ↔
      ((none : Option (List Nat)) = none ∨ 40 < 32)) ∧
    (((none : Option (List Nat)) = none ∨ 40 < 32) →
      generate_attestation initial_state none 40 = some ⟨-1, initial_state, none⟩) ∧
    (∃ t, generate_attestation initial_state (some (List.replicate 33 9)) 33
        = some ⟨0, initial_state, some t⟩ ∧
      t.take 32 = (List.range 32).map (fun i => i ^^^ 0x55) ∧
      t.drop 32 = (List.replicate 33 9).drop 32 ∧ t.length = (List.replicate 33 9).length) ∧
    (List.range 32).map (fun i => i ^^^ 0x55)
      = [0x55, 0x54, 0x57, 0x56, 0x51, 0x50, 0x53, 0x52, 0x5D, 0x5C, 0x5F, 0x5E, 0x59, 0x58,
         0x5B, 0x5A, 0x45, 0x44, 0x47, 0x46, 0x41, 0x40, 0x43, 0x42, 0x4D, 0x4C, 0x4F, 0x4E,
         0x49, 0x48, 0x4B, 0x4A] ∧
    ((List.range 32).map (fun i => i ^^^ 0x55)).Nodup ∧
    (∀ b ∈ (List.range 32).map (fun i => i ^^^ 0x55), b < 256) :=
  generate_attestation_spec initial_state none 40 (List.replicate 33 9) 33
    (by decide) (by simp)

/-- C16: frame of `secure_key_operation`.  A successful store of `n` bytes sets
secure buffer bytes `0 .. n-1` to the payload and leaves the secure buffer from
index `n` on and the caller's buffer unchanged.  A successful retrieve of `n`
bytes sets `key[0 .. n-1]` to secure buffer bytes `0 .. n-1` and leaves the
secure buffer unchanged, so repeating the retrieve any number `m` of times
gives the same outcome. -/
theorem secure_key_operation_frame (s : State) (key_id : String) (k : List Nat)
    (n m : Nat) (f : Int) (hf : f ≠ 0) (hn : n ≤ SECURE_BUFFER_SIZE) (hk : n ≤ k.length) :
    (∃ r, secure_key_operation s (some key_id) (some k) n f = some r ∧ r.ret = 0 ∧
      r.state.secure_buffer.take n = k.take n ∧
      r.state.secure_buffer.drop n = s.secure_buffer.drop n ∧ r.buffer = some k) ∧
    (∃ r b, secure_key_operation s (some key_id) (some k) n 0 = some r ∧ r.ret = 0 ∧
      r.state = s ∧ r.buffer = some b ∧
      b.take n = s.secure_buffer.take n ∧ b.drop n = k.drop n ∧
      Nat.iterate
        (fun o => Option.bind o
          (fun r1 => secure_key_operation r1.state (some key_id) r1.buffer n 0))
        m (some r) = some r) := by
  have hsn : n ≤ s.secure_buffer.length := hn.trans_eq s.size_eq.symm
  have hlen : (List.take n s.secure_buffer).length = n := by
    rw [List.length_take]; omega
  have hklen : (List.take n k).length = n := by
    rw [List.length_take]; omega
  constructor
  · obtain ⟨r, h, hr, hs, hb⟩ := store_eq s key_id k n f hf hn hk
    refine ⟨r, h, hr, ?_, ?_, hb⟩
    · rw [hs, List.take_append_of_le_length (Nat.le_of_eq hklen.symm),
        List.take_of_length_le (Nat.le_of_eq hklen)]
    · rw [hs, List.drop_append_of_le_length (Nat.le_of_eq hklen.symm),
        List.drop_of_length_le (Nat.le_of_eq hklen), List.nil_append]
  · have htk : List.take n (List.take n s.secure_buffer ++ List.drop n k)
        = List.take n s.secure_buffer := by
      rw [List.take_append_of_le_length (Nat.le_of_eq hlen.symm),
        List.take_of_length_le (Nat.le_of_eq hlen)]
    have hdr : List.drop n (List.take n s.secure_buffer ++ List.drop n k)
        = List.drop n k := by
      rw [List.drop_append_of_le_length (Nat.le_of_eq hlen.symm),
        List.drop_of_length_le (Nat.le_of_eq hlen), List.nil_append]
    refine ⟨_, _, retrieve_eq s key_id k n hn hk, rfl, rfl, rfl, htk, hdr, ?_⟩
    apply Function.iterate_fixed
    have hk2 : n ≤ (List.take n s.secure_buffer ++ List.drop n k).length := by
      rw [List.length_append, hlen]; omega
    show secure_key_operation s (some key_id)
      (some (List.take n s.secure_buffer ++ List.drop n k)) n 0 = _
    rw [retrieve_eq s key_id _ n hn hk2, hdr]

/-- Instance of the frame: three bytes under "k1", the retrieve repeated five
times. -/
theorem secure_key_operation_frame_witness :
    (∃ r, secure_key_operation initial_state (some "k1") (some [1, 2, 3]) 3 1 = some r ∧
      r.ret = 0 ∧
      r.state.secure_buffer.take 3 = ([1, 2, 3] : List Nat).take 3 ∧
      r.state.secure_buffer.drop 3 = initial_state.secure_buffer.drop 3 ∧
      r.buffer = some [1, 2, 3]) ∧
    (∃ r b, secure_key_operation initial_state (some "k1") (some [1, 2, 3]) 3 0 = some r ∧
      r.ret = 0 ∧
      r.state = initial_state ∧ r.buffer = some b ∧
      b.take 3 = initial_state.secure_buffer.take 3 ∧ b.drop 3 = ([1, 2, 3] : List Nat).drop 3 ∧
      Nat.iterate
        (fun o => Option.bind o
          (fun r1 => secure_key_operation r1.state (some "k1") r1.buffer 3 0))
        5 (some r) = some r) :=
  secure_key_operation_frame initial_state "k1" [1, 2, 3] 3 5 1
    (by decide) (by decide) (by decide)

/-- C17: `secure_key_operation` ignores the value of `key_id`.  For every
state, key buffer, size and mode, two non-null key ids give the same outcome
(return code, secure buffer and key buffer).  Hence a payload stored under `a`
is returned by a retrieve under `b`, and after a second store under `b` a
retrieve under `a` yields the second payload. -/
theorem key_id_ignored (s : State) (a b : String) (key : Option (List Nat)) (n : Nat)
    (f : Int) (p1 p2 buf : List Nat) (hp1 : p1.length ≤ SECURE_BUFFER_SIZE)
    (hp2 : p2.length ≤ SECURE_BUFFER_SIZE) (hb1 : p1.length ≤ buf.length)
    (hb2 : p2.length ≤ buf.length) :
    secure_key_operation s (some a) key n f = secure_key_operation s (some b) key n f ∧
    (∃ r1 r2, secure_key_operation s (some a) (some p1) p1.length 1 = some r1 ∧
      r1.ret = 0 ∧
      secure_key_operation r1.state (some b) (some buf) p1.length 0 = some r2 ∧
      r2.ret = 0 ∧ r2.buffer = some (p1 ++ buf.drop p1.length)) ∧
    (∃ r1 r2 r3, secure_key_operation s (some a) (some p1) p1.length 1 = some r1 ∧
      r1.ret = 0 ∧
      secure_key_operation r1.state (some b) (some p2) p2.length 1 = some r2 ∧
      r2.ret = 0 ∧
      secure_key_operation r2.state (some a) (some buf) p2.length 0 = some r3 ∧
      r3.ret = 0 ∧ r3.buffer = some (p2 ++ buf.drop p2.length)) := by
  obtain ⟨r1, h1, hr1, hs1, _⟩ :=
    store_eq s a p1 p1.length 1 (by decide) hp1 (Nat.le_refl _)
  obtain ⟨r2, h2, hr2, hs2, _⟩ :=
    store_eq r1.state b p2 p2.length 1 (by decide) hp2 (Nat.le_refl _)
  refine ⟨?_, ⟨r1, _, h1, hr1, retrieve_eq r1.state b buf p1.length hp1 hb1, rfl, ?_⟩,
    ⟨r1, r2, _, h1, hr1, h2, hr2, retrieve_eq r2.state a buf p2.length hp2 hb2, rfl, ?_⟩⟩
  · cases key <;> rfl
  · simp [hs1]
  · simp [hs2]

/-- Instance of the ignored key id: "k1" and "k2", payloads `[1, 2, 3]` and
`[9]`. -/
theorem key_id_ignored_witness :
    secure_key_operation initial_state (some "k1") (some [4, 4]) 2 0
      = secure_key_operation initial_state (some "k2") (some [4, 4]) 2 0 ∧
    (∃ r1 r2, secure_key_operation initial_state (some "k1") (some [1, 2, 3])
        ([1, 2, 3] : List Nat).length 1 = some r1 ∧
      r1.ret = 0 ∧
      secure_key_operation r1.state (some "k2") (some [0, 0, 0])
        ([1, 2, 3] : List Nat).length 0 = some r2 ∧
      r2.ret = 0 ∧
      r2.buffer = some ([1, 2, 3] ++ ([0, 0, 0] : List Nat).drop ([1, 2, 3] : List Nat).length)) ∧
    (∃ r1 r2 r3, secure_key_operation initial_state (some "k1") (some [1, 2, 3])
        ([1, 2, 3] : List Nat).length 1 = some r1 ∧
      r1.ret = 0 ∧
      secure_key_operation r1.state (some "k2") (some [9]) ([9] : List Nat).length 1
        = some r2 ∧
      r2.ret = 0 ∧
      secure_key_operation r2.state (some "k1") (some [0, 0, 0]) ([9] : List Nat).length 0
        = some r3 ∧
      r3.ret = 0 ∧
      r3.buffer = some ([9] ++ ([0, 0, 0] : List Nat).drop ([9] : List Nat).length)) :=
  key_id_ignored initial_state "k1" "k2" (some [4, 4]) 2 0 [1, 2, 3] [9] [0, 0, 0]
    (by decide) (by decide) (by decide) (by decide)

/-- Transforming a byte twice gives the byte back. -/
theorem xor_byte_twice (b : Nat) (hb : b < 256) :
    (((b ^^^ 0xAA) % 256) ^^^ 0xAA) % 256 = b := by
  rw [Nat.mod_eq_of_lt (xor_byte_lt b hb), Nat.xor_assoc, Nat.xor_self, Nat.xor_zero,
    Nat.mod_eq_of_lt hb]

/-- C18: `secure_compute` is an involution on the data.  For every input `x` of
`n ≤ 1024` bytes, running `secure_compute` on the `n` byte output of
`secure_compute(x)` returns 0 and yields `x` again. -/
theorem secure_compute_involution (s : State) (x out1 out2 : List Nat) (m1 m2 : Nat)
    (hbytes : ∀ b ∈ x, b < 256) (hn : x.length ≤ SECURE_BUFFER_SIZE)
    (h1 : x.length ≤ out1.length) (h2 : x.length ≤ out2.length) :
    ∃ r1 o1 r2 o2,
      secure_compute s (some x) x.length (some out1) m1 = some r1 ∧ r1.ret = 0 ∧
      r1.buffer = some o1 ∧
      secure_compute r1.state (some (o1.take x.length)) x.length (some out2) m2 = some r2 ∧
      r2.ret = 0 ∧ r2.buffer = some o2 ∧ o2.take x.length = x := by
  obtain ⟨r1, hc1, hr1, _, hb1⟩ := compute_eq s x out1 x.length m1 hn (Nat.le_refl _) h1
  rw [List.take_length] at hb1
  have hmap : (List.map (fun b => (b ^^^ 0xAA) % 256) x).length = x.length :=
    List.length_map _ _
  have hto : List.take x.length (List.map (fun b => (b ^^^ 0xAA) % 256) x ++
      List.drop x.length out1) = List.map (fun b => (b ^^^ 0xAA) % 256) x := by
    rw [List.take_append_of_le_length (Nat.le_of_eq hmap.symm),
      List.take_of_length_le (Nat.le_of_eq hmap)]
  obtain ⟨r2, hc2, hr2, _, hb2⟩ :=
    compute_eq r1.state (List.map (fun b => (b ^^^ 0xAA) % 256) x) out2 x.length m2 hn
      (Nat.le_of_eq hmap.symm) h2
  rw [List.take_of_length_le (Nat.le_of_eq hmap), List.map_map] at hb2
  have hid : List.map ((fun b => (b ^^^ 0xAA) % 256) ∘ (fun b => (b ^^^ 0xAA) % 256)) x = x := by
    conv_rhs => rw [← List.map_id x]
    apply List.map_congr_left
    intro b hb
    exact xor_byte_twice b (hbytes b hb)
  rw [hid] at hb2
  refine ⟨r1, _, r2, _, hc1, hr1, hb1, ?_, hr2, hb2, ?_⟩
  · rw [hto]; exact hc2
  · rw [List.take_append_of_le_length (Nat.le_refl _), List.take_length]

/-- Instance of the involution: input `[1, 2]`. -/
theorem secure_compute_involution_witness :
    (∀ b ∈ ([1, 2] : List Nat), b < 256) ∧
    ∃ r1 o1 r2 o2,
      secure_compute initial_state (some [1, 2]) ([1, 2] : List Nat).length (some [0, 0]) 2
        = some r1 ∧ r1.ret = 0 ∧
      r1.buffer = some o1 ∧
      secure_compute r1.state (some (o1.take ([1, 2] : List Nat).length))
        ([1, 2] : List Nat).length (some [7, 7, 7]) 3 = some r2 ∧
      r2.ret = 0 ∧ r2.buffer = some o2 ∧ o2.take ([1, 2] : List Nat).length = [1, 2] :=
  ⟨by decide,
    secure_compute_involution initial_state [1, 2] [0, 0] [7, 7, 7] 2 3
      (by decide) (by decide) (by decide) (by decide)⟩

/-- C19: `secure_compute` does not use `output_size`.  For every state, input,
output and any two declared output sizes the outcome is the same; so with a
declared size `m` below `input_size = k` the call still returns 0 and writes
`k` output bytes. -/
theorem secure_compute_ignores_output_size (s : State) (input output : Option (List Nat))
    (n m1 m2 : Nat) (inp out : List Nat) (k m : Nat) (hk : k ≤ SECURE_BUFFER_SIZE)
    (hi : k ≤ inp.length) (ho : k ≤ out.length) (hm : m < k) :
    secure_compute s input n output m1 = secure_compute s input n output m2 ∧
    ∃ r o, secure_compute s (some inp) k (some out) m = some r ∧ r.ret = 0 ∧
      r.buffer = some o ∧
      o.take k = (inp.take k).map (fun b => (b ^^^ 0xAA) % 256) ∧
      (o.take k).length = k ∧ m < (o.take k).length ∧ o.drop k = out.drop k := by
  obtain ⟨r, hc, hr, _, hb⟩ := compute_eq s inp out k m hk hi ho
  have hlen : (List.map (fun b => (b ^^^ 0xAA) % 256) (List.take k inp)).length = k := by
    rw [List.length_map, List.length_take]; omega
  have htk : List.take k (List.map (fun b => (b ^^^ 0xAA) % 256) (List.take k inp) ++
      List.drop k out) = List.map (fun b => (b ^^^ 0xAA) % 256) (List.take k inp) := by
    rw [List.take_append_of_le_length (Nat.le_of_eq hlen.symm),
      List.take_of_length_le (Nat.le_of_eq hlen)]
  refine ⟨rfl, r, _, hc, hr, hb, htk, ?_, ?_, ?_⟩
  · rw [htk, hlen]
  · rw [htk, hlen]; exact hm
  · rw [List.drop_append_of_le_length (Nat.le_of_eq hlen.symm),
      List.drop_of_length_le (Nat.le_of_eq hlen), List.nil_append]

/-- Instance of the unused output size: two input bytes, declared output size
1 and an output buffer of three bytes. -/
theorem secure_compute_ignores_output_size_witness :
    (1 < 2) ∧
    (secure_compute initial_state (some [1, 2]) 2 (some [0, 0, 5]) 3
      = secure_compute initial_state (some [1, 2]) 2 (some [0, 0, 5]) 0 ∧
    ∃ r o, secure_compute initial_state (some [1, 2]) 2 (some [0, 0, 5]) 1 = some r ∧
      r.ret = 0 ∧ r.buffer = some o ∧
      o.take 2 = (([1, 2] : List Nat).take 2).map (fun b => (b ^^^ 0xAA) % 256) ∧
      (o.take 2).length = 2 ∧ 1 < (o.take 2).length ∧
      o.drop 2 = ([0, 0, 5] : List Nat).drop 2) :=
  ⟨by decide,
    secure_compute_ignores_output_size initial_state (some [1, 2]) (some [0, 0, 5]) 2 3 0
      [1, 2] [0, 0, 5] 2 1 (by decide) (by decide) (by decide) (by decide)⟩

end TrustZoneApp
